import Mathlib

/-!
# Verification of the Simple Artefact Registry

A shallow embedding of `simple_artefact_registry/__init__.py`:

* the route builder `build_urls` (recursive walk of the artefact
  configuration tree, turning leaves into routes with inherited settings),
* the per-route request handler (`get`, `put`, `write_error`) over an
  explicit filesystem state,
* a heap-passing variant of `build_urls` used to reason about mutation of
  the caller's dictionaries.

Python dictionaries are embedded as association lists in insertion order,
Python strings as Lean `String` (with slicing done on the character list,
matching Python's character-based indexing), and raised exceptions as
`Except` results.
-/

set_option autoImplicit false

namespace SAR

/-! ## Python dictionary primitives

An insertion-ordered association list models a Python `dict`.  `dictSet`
is `d[k] = v` (replace in place, else append), `pyUpdate` is
`d.update(items)`, `pyDictOf` is `dict(items)`, and `pyLookup` is
`d[k]` / `k in d`. -/

/-- `d[k] = v` on an insertion-ordered dictionary: if the key is present its
value is replaced in place, otherwise the pair is appended. -/
def dictSet {α : Type} (d : List (String × α)) (k : String) (v : α) : List (String × α) :=
  if d.any (fun kv => kv.1 == k) then
    d.map (fun kv => if kv.1 == k then (kv.1, v) else kv)
  else
    d ++ [(k, v)]

/-- `d.update(items)`: set every pair of `items` in order. -/
def pyUpdate {α : Type} (d : List (String × α)) (items : List (String × α)) : List (String × α) :=
  items.foldl (fun acc kv => dictSet acc kv.1 kv.2) d

/-- `dict(items)`: build a dictionary from a pair list (later duplicates win). -/
def pyDictOf {α : Type} (items : List (String × α)) : List (String × α) :=
  pyUpdate [] items

/-- `d[k]` as an optional value; `none` models `k not in d`. -/
def pyLookup {α : Type} (d : List (String × α)) (k : String) : Option α :=
  (d.find? (fun kv => kv.1 == k)).map (fun kv => kv.2)

/-- Python `s.startswith(pre)`, on the character list. -/
def pyStartsWith (s pre : String) : Bool :=
  pre.data.isPrefixOf s.data

/-- Python `s[n:]`, character based. -/
def pyDropStr (s : String) (n : Nat) : String :=
  String.mk (s.data.drop n)

/-! ## The artefact configuration tree

A parsed YAML value: a scalar (`null` for an empty YAML value, or a
string), or a mapping.  Mappings are kept in insertion order; `Entries`
is the entry list of a mapping (isomorphic to `List (String × Config)`,
a separate inductive so the tree walk is structurally recursive). -/

mutual

inductive Config where
  | null : Config
  | str : String → Config
  | node : Entries → Config
deriving DecidableEq

inductive Entries where
  | nil : Entries
  | cons : String → Config → Entries → Entries
deriving DecidableEq

end

/-- The settings dictionary carried by `build_urls` (values are the raw
configuration values of the stripped `_`-keys). -/
abbrev SDict := List (String × Config)

/-- A route produced by `build_urls`: the source emits the tuple
`(url, ArtefactHandler, {'path': url, 'settings': settings})`; the constant
handler class is omitted and the keyword dictionary is flattened into the
`path` and `settings` fields. -/
structure Route where
  url : String
  path : String
  settings : SDict
deriving DecidableEq

/-- The Python exception raised by `build_urls` when a configuration value
that is not a mapping is asked for its keys (`value.keys()` /
`config.items()` on a non-dict). -/
inductive PyError where
  | attributeError : PyError
deriving DecidableEq

deriving instance DecidableEq for Except

/-- `[(key[1:], value) for key, value in config.items() if key.startswith('_')]`:
the stripped setting items of a node, in order. -/
def settingsItems : Entries → List (String × Config)
  | .nil => []
  | .cons key value rest =>
    (if pyStartsWith key "_" then [(pyDropStr key 1, value)] else []) ++ settingsItems rest

/-- Truthiness of `[k for k in value.keys() if not k.startswith('_')]`:
whether a node has at least one child (non-setting) key. -/
def hasChildKeys : Entries → Bool
  | .nil => false
  | .cons key _ rest => (! pyStartsWith key "_") || hasChildKeys rest

/-- The `settings` computed at the top of each `build_urls` call:
`deepcopy(base_settings)` updated with the node's own stripped setting
items when `base_settings` is truthy (neither `None` nor empty), else
`dict(...)` of the node's own stripped setting items.  (On pure values the
deep copy is the identity; the heap model below keeps it explicit.) -/
def nodeSettings (baseSettings : Option SDict) (entries : Entries) : SDict :=
  match baseSettings with
  | some bs =>
    if bs.isEmpty then pyDictOf (settingsItems entries)
    else pyUpdate bs (settingsItems entries)
  | none => pyDictOf (settingsItems entries)

mutual

/-- `build_urls(config, base_url, base_settings)`.  A non-mapping `config`
raises `AttributeError` at `config.items()`; otherwise the settings are
computed once and the child entries are walked by `buildUrlsLoop`.  The
source first builds the filtered list `artefacts` and then iterates it;
the loop here skips setting keys as it walks, which visits the same
entries in the same order. -/
def buildUrls (config : Config) (baseUrl : String) (baseSettings : Option SDict) :
    Except PyError (List Route) :=
  match config with
  | .node entries => buildUrlsLoop entries baseUrl (nodeSettings baseSettings entries)
  | _ => Except.error PyError.attributeError

/-- The `for key, value in artefacts:` loop of `build_urls`.  For each child
entry: a value that is not a mapping raises `AttributeError` at
`value.keys()`; a directory child (some non-`_` key) is recursed into with
the current settings as inherited base; a leaf child emits one route whose
settings are the *current node's* settings. -/
def buildUrlsLoop (entries : Entries) (baseUrl : String) (settings : SDict) :
    Except PyError (List Route) :=
  match entries with
  | .nil => Except.ok []
  | .cons key value rest =>
    if pyStartsWith key "_" then buildUrlsLoop rest baseUrl settings
    else
      match value with
      | Config.node ventries =>
        match (if hasChildKeys ventries then
                 buildUrls value (baseUrl ++ "/" ++ key) (some settings)
               else
                 Except.ok [{ url := baseUrl ++ "/" ++ key, path := baseUrl ++ "/" ++ key,
                              settings := settings }]) with
        | Except.ok here =>
          match buildUrlsLoop rest baseUrl settings with
          | Except.ok there => Except.ok (here ++ there)
          | Except.error e => Except.error e
        | Except.error e => Except.error e
      | _ => Except.error PyError.attributeError

end

example :
    buildUrls (.node (.cons "_base_directory" (.str "/data")
      (.cons "a" (.node (.cons "b" (.node .nil) .nil)) .nil))) "" none =
    Except.ok [{ url := "/a/b", path := "/a/b",
                 settings := [("base_directory", Config.str "/data")] }] := by decide

/-! ## Characterising the routes of `build_urls`

`leafData` walks the tree exactly as `build_urls` does and records, for
every leaf, the key path from the root and the settings dictionary the
leaf's route receives (the settings computed at the *parent* node).
`buildUrls_eq_leafData` proves that on success `build_urls` returns
precisely one route per recorded leaf, in traversal order. -/

mutual

/-- The leaves reachable from a node, as (key path, emitted settings)
pairs, walking the tree in the same order as `buildUrls`. -/
def leafData (c : Config) (s : Option SDict) : List (List String × SDict) :=
  match c with
  | .node entries => leafLoop entries (nodeSettings s entries)
  | _ => []

/-- Loop companion of `leafData`, walking the child entries of a node whose
computed settings are `settings`. -/
def leafLoop (entries : Entries) (settings : SDict) : List (List String × SDict) :=
  match entries with
  | .nil => []
  | .cons key value rest =>
    (if pyStartsWith key "_" then []
     else
       match value with
       | Config.node ventries =>
         if hasChildKeys ventries then
           (leafData value (some settings)).map (fun qd => (key :: qd.1, qd.2))
         else [([key], settings)]
       | _ => []) ++ leafLoop rest settings

end

/-- `/`-joining of a key path onto an accumulated URL, as performed by the
source's repeated `f'{base_url}/{key}'`: each segment is appended after a
`/` separator. -/
def joinSeg (segs : List String) : String :=
  segs.foldl (fun acc k => acc ++ "/" ++ k) ""

/-- The route a leaf record gives rise to under accumulated URL `base`. -/
def routeOfLeaf (base : String) (qd : List String × SDict) : Route :=
  { url := base ++ joinSeg qd.1, path := base ++ joinSeg qd.1, settings := qd.2 }

/-! ## Leaf key paths and per-leaf ancestor chains -/

mutual

/-- The key paths of all leaves below a node, in traversal order. -/
def leafPaths (c : Config) : List (List String) :=
  match c with
  | .node entries => leafPathsLoop entries
  | _ => []

/-- Loop companion of `leafPaths`. -/
def leafPathsLoop (entries : Entries) : List (List String) :=
  match entries with
  | .nil => []
  | .cons key value rest =>
    (if pyStartsWith key "_" then []
     else
       match value with
       | Config.node ventries =>
         if hasChildKeys ventries then (leafPaths value).map (fun q => key :: q)
         else [[key]]
       | _ => []) ++ leafPathsLoop rest

end

mutual

/-- For every leaf below `c`, the chain of stripped setting items of the
nodes walked from the root down to the leaf's *parent* (`ch` accumulates
the chain of the nodes above `c`). -/
def leafChains (c : Config) (ch : List (List (String × Config))) :
    List (List (List (String × Config))) :=
  match c with
  | .node entries => leafChainsLoop entries (ch ++ [settingsItems entries])
  | _ => []

/-- Loop companion of `leafChains`; `ch` is the chain including the current
node. -/
def leafChainsLoop (entries : Entries) (ch : List (List (String × Config))) :
    List (List (List (String × Config))) :=
  match entries with
  | .nil => []
  | .cons key value rest =>
    (if pyStartsWith key "_" then []
     else
       match value with
       | Config.node ventries =>
         if hasChildKeys ventries then leafChains value ch
         else [ch]
       | _ => []) ++ leafChainsLoop rest ch

end

/-- The value of setting `name` at the *nearest* node of the chain that
carries it (later chain entries are deeper nodes and win), or `none` if no
node of the chain carries it. -/
def nearestIn (chain : List (List (String × Config))) (name : String) : Option Config :=
  chain.foldl
    (fun acc items =>
      match pyLookup (pyDictOf items) name with
      | some v => some v
      | none => acc) none

/-! ## Key uniqueness (Python dictionaries cannot carry duplicate keys) -/

/-- No string occurs twice in the list. -/
def nodupKeysB : List String → Bool
  | [] => true
  | x :: xs => (! xs.contains x) && nodupKeysB xs

/-- The keys of a node's entries, in order. -/
def entryKeys : Entries → List String
  | .nil => []
  | .cons k _ rest => k :: entryKeys rest

mutual

/-- Every mapping in the tree has pairwise distinct keys, as is forced on
the source by the Python `dict` representation. -/
def uniqKeys : Config → Bool
  | .node entries => nodupKeysB (entryKeys entries) && uniqChildren entries
  | _ => true

/-- Loop companion of `uniqKeys`. -/
def uniqChildren : Entries → Bool
  | .nil => true
  | .cons _ v rest => uniqKeys v && uniqChildren rest

end

/-! ## Malformed trees: non-mapping child values -/

mutual

/-- Whether some child (non-setting) value reachable in the tree is not a
mapping — e.g. the `null` produced by a YAML `file_name:` with no value. -/
def hasBadChild : Config → Bool
  | .node entries => badChildren entries
  | _ => false

/-- Loop companion of `hasBadChild`. -/
def badChildren : Entries → Bool
  | .nil => false
  | .cons key value rest =>
    (if pyStartsWith key "_" then false
     else
       match value with
       | Config.node _ => hasBadChild value
       | _ => true) || badChildren rest

end

/-! ## The artefact handler

The handler of one route carries its `path` and `settings` (for the routes
the source builds, the three recognised settings are the configured token
and base-directory strings, so the handler settings dictionary is embedded
with string values).  The filesystem is explicit state: a dictionary of
file contents (bytes as naturals) and the list of created directories.
Request headers are a dictionary (Tornado normalises header names, so they
are indexed by the canonical name `Authorization`). -/

/-- Failures of a single request: `http s` is `tornado.web.HTTPError(s)`,
`keyError` the `KeyError` a missing `base_directory` would raise inside the
f-string, `osError` an `open` failure (e.g. the path is a directory). -/
inductive HandlerError where
  | http : Nat → HandlerError
  | keyError : String → HandlerError
  | osError : HandlerError
deriving DecidableEq

/-- The filesystem state. -/
structure FS where
  files : List (String × List Nat)
  dirs : List String
deriving DecidableEq

/-- `os.path.exists`: a file or directory exists at the path. -/
def fsExists (fs : FS) (p : String) : Bool :=
  (pyLookup fs.files p).isSome || decide (p ∈ fs.dirs)

/-- `os.path.dirname` (CPython posixpath): everything up to the final
slash, right-stripping slashes unless the head is all slashes. -/
def dirname (p : String) : String :=
  let l := p.data
  let i := l.length - (l.reverse.takeWhile (fun c => ! (c == '/'))).length
  let head := l.take i
  if (! head.isEmpty) && head.any (fun c => ! (c == '/')) then
    String.mk (head.reverse.dropWhile (fun c => c == '/')).reverse
  else
    String.mk head

example : dirname "/data/a/b" = "/data/a" := by decide

example : dirname "/data" = "/" := by decide

example : dirname "a" = "" := by decide

example : dirname "/a/" = "/a" := by decide

/-- `os.mkdir(name)`: record the new directory (its error cases are guarded
away by the `exists` checks at the call sites). -/
def mkdirCons (name : String) (fs : FS) : FS :=
  { fs with dirs := name :: fs.dirs }

/-- `os.makedirs`, modelled from the library's documented semantics: make
the leaf directory together with every missing intermediate directory,
recursing on `dirname`.  The fuel argument (instantiated with the length
of the name by `makedirs`) only bounds the recursion depth; every
recursive call strictly shortens the name, so the zero-fuel fallback is
never reached from `makedirs`. -/
def makedirsAux : Nat → FS → String → FS
  | 0, fs, name => mkdirCons name fs
  | fuel + 1, fs, name =>
    mkdirCons name
      (if dirname name ≠ "" ∧ (dirname name).length < name.length ∧
          fsExists fs (dirname name) = false then
        makedirsAux fuel fs (dirname name)
      else fs)

/-- `os.makedirs(name)` (the call sites guard it with `not exists(...)`). -/
def makedirs (fs : FS) (name : String) : FS :=
  makedirsAux name.length fs name

/-- The chain of a path and its ancestor directories, following `dirname`
until it reaches the empty string or stops shrinking (filesystem root).
Fuel as in `makedirsAux`. -/
def dirChainAux : Nat → String → List String
  | 0, _ => []
  | fuel + 1, p =>
    if p = "" then []
    else p :: (if (dirname p).length < p.length then dirChainAux fuel (dirname p) else [])

/-- The ancestor chain of a path (the path itself included). -/
def dirChain (p : String) : List String :=
  dirChainAux p.length p

example : dirChain "/data/a" = ["/data/a", "/data", "/"] := by decide

/-- The `while True` read loop of `get`: `in_f.read(1024)` until the read
comes back empty, collecting the chunks passed to `self.write`.  Fuel as
in `makedirsAux` (each step consumes at least one element). -/
def readChunksAux : Nat → List Nat → List (List Nat)
  | _, [] => []
  | 0, _ :: _ => []
  | fuel + 1, c :: cs => ((c :: cs).take 1024) :: readChunksAux fuel ((c :: cs).drop 1024)

/-- The chunk sequence streamed for a file with the given contents. -/
def readChunks (contents : List Nat) : List (List Nat) :=
  readChunksAux contents.length contents

/-- The bearer-authorization check of `get` (key `"read_token"`) and `put`
(key `"write_token"`), lines 63–69 and 89–95 of the source: if the key is
in the settings, require a non-empty header dictionary containing
`Authorization`, whose value starts with the literal `'bearer '` and whose
remainder after the 7-character prefix equals the configured token.
`true` means the request is not rejected (no `HTTPError(401)` raised). -/
def tokenCheck (settings : List (String × String)) (key : String)
    (headers : List (String × String)) : Bool :=
  match pyLookup settings key with
  | none => true
  | some tok =>
    match (if headers.isEmpty then none else pyLookup headers "Authorization") with
    | none => false
    | some auth => pyStartsWith auth "bearer " && (pyDropStr auth 7 == tok)

/-- `ArtefactHandler.get`: authorization, existence check on
`f'{settings["base_directory"]}{path}'`, then the chunked read of the
file.  The result is the list of chunks written to the client (the run
without a mid-stream client disconnect). -/
def artefactGet (path : String) (settings : List (String × String))
    (headers : List (String × String)) (fs : FS) : Except HandlerError (List (List Nat)) :=
  if tokenCheck settings "read_token" headers = false then
    Except.error (HandlerError.http 401)
  else
    match pyLookup settings "base_directory" with
    | none => Except.error (HandlerError.keyError "base_directory")
    | some bd =>
      if fsExists fs (bd ++ path) = false then
        Except.error (HandlerError.http 404)
      else
        match pyLookup fs.files (bd ++ path) with
        | some contents => Except.ok (readChunks contents)
        | none => Except.error HandlerError.osError

/-- `ArtefactHandler.put`: authorization, `makedirs` of the missing parent
directory, then `open(..., 'wb')` replacing the file's contents with the
request body and `set_status(204)`.  The filesystem is returned unchanged
when an error is raised (the source raises before any filesystem call). -/
def artefactPut (path : String) (settings : List (String × String))
    (headers : List (String × String)) (body : List Nat) (fs : FS) :
    FS × Except HandlerError Nat :=
  if tokenCheck settings "write_token" headers = false then
    (fs, Except.error (HandlerError.http 401))
  else
    match pyLookup settings "base_directory" with
    | none => (fs, Except.error (HandlerError.keyError "base_directory"))
    | some bd =>
      let full := bd ++ path
      let fs1 := if fsExists fs (dirname full) = false then makedirs fs (dirname full) else fs
      ({ fs1 with files := dictSet fs1.files full body }, Except.ok 204)

/-- An error response as assembled by `write_error`: the headers it sets
and the body it finishes with. -/
structure ErrorResponse where
  headers : List (String × String)
  body : String
deriving DecidableEq

/-- `ArtefactHandler.write_error`: unconditionally set the
`WWW-Authenticate` challenge header and finish with `f'{status_code}'`. -/
def write_error (status_code : Nat) : ErrorResponse :=
  { headers := [("WWW-Authenticate", "bearer realm=\"Simple Artefact Registry\"")],
    body := toString status_code }

example :
    artefactPut "/a" [("base_directory", "/data")] [] [7, 8] { files := [], dirs := [] } =
      ({ files := [("/data/a", [7, 8])], dirs := ["/data", "/"] }, Except.ok 204) := by decide

example :
    artefactGet "/a" [("base_directory", "/data")] []
      { files := [("/data/a", [7, 8])], dirs := ["/data", "/"] } =
      Except.ok [[7, 8]] := by decide

example :
    artefactGet "/a" [("base_directory", "/data"), ("read_token", "abc")]
      [("Authorization", "bearer abd")] { files := [("/data/a", [7, 8])], dirs := [] } =
      Except.error (HandlerError.http 401) := by decide

/-! ## Heap-passing `build_urls`: the caller's dictionaries are not mutated

The pure `buildUrls` above passes dictionaries by value, which silently
assumes `build_urls` never mutates its `config` or `base_settings`
arguments.  `config` is only ever read (`config.items()`, `value.keys()`)
and never assigned into.  The settings dictionaries, however, are both
shared (routes alias the same settings object) and updated
(`settings.update(...)`), so this variant makes them heap cells: `deepcopy`
allocates a fresh cell copying the inherited dictionary and `update`
mutates that fresh cell in place, exactly as in the source.  The frame
theorem shows every heap cell existing before a call holds the same
dictionary afterwards — in particular the caller's `base_settings`. -/

/-- The heap of settings dictionaries; addresses are list indices and
allocation appends. -/
abbrev Heap := List SDict

/-- Dereference a heap address. -/
def hGet (h : Heap) (a : Nat) : SDict :=
  h.getD a []

/-- Mutate the dictionary at a heap address in place. -/
def hSet (h : Heap) (a : Nat) (d : SDict) : Heap :=
  h.set a d

/-- A route holding the heap address of its (shared) settings dictionary. -/
structure RouteH where
  url : String
  path : String
  settings : Nat
deriving DecidableEq

/-- The settings computation at the top of `build_urls`, heap-passing:
`if base_settings:` (truthy = an address holding a non-empty dictionary)
then `settings = deepcopy(base_settings)` — allocate a fresh cell copying
the inherited dictionary — followed by `settings.update(dict([...]))` —
mutate the fresh cell; else `settings = dict([...])`, also a fresh cell.
Returns the address of the node's settings and the new heap. -/
def allocSettingsH (baseSettings : Option Nat) (entries : Entries) (h : Heap) : Nat × Heap :=
  match baseSettings with
  | some a =>
    if (hGet h a).isEmpty then
      (h.length, h ++ [pyDictOf (settingsItems entries)])
    else
      (h.length,
       hSet (h ++ [hGet h a]) h.length
         (pyUpdate (hGet (h ++ [hGet h a]) h.length) (settingsItems entries)))
  | none => (h.length, h ++ [pyDictOf (settingsItems entries)])

mutual

/-- Heap-passing `build_urls`: as `buildUrls`, with `base_settings` a heap
address (or `None`) and emitted routes sharing their settings address. -/
def buildUrlsH (config : Config) (baseUrl : String) (baseSettings : Option Nat) (h : Heap) :
    Except PyError (List RouteH × Heap) :=
  match config with
  | .node entries =>
    buildUrlsLoopH entries baseUrl (allocSettingsH baseSettings entries h).1
      (allocSettingsH baseSettings entries h).2
  | _ => Except.error PyError.attributeError

/-- Loop companion of `buildUrlsH`, threading the heap left to right. -/
def buildUrlsLoopH (entries : Entries) (baseUrl : String) (sa : Nat) (h : Heap) :
    Except PyError (List RouteH × Heap) :=
  match entries with
  | .nil => Except.ok ([], h)
  | .cons key value rest =>
    if pyStartsWith key "_" then buildUrlsLoopH rest baseUrl sa h
    else
      match value with
      | Config.node ventries =>
        match (if hasChildKeys ventries then
                 buildUrlsH value (baseUrl ++ "/" ++ key) (some sa) h
               else
                 Except.ok ([{ url := baseUrl ++ "/" ++ key, path := baseUrl ++ "/" ++ key,
                               settings := sa }], h)) with
        | Except.ok (here, h2) =>
          match buildUrlsLoopH rest baseUrl sa h2 with
          | Except.ok (there, h3) => Except.ok (here ++ there, h3)
          | Except.error e => Except.error e
        | Except.error e => Except.error e
      | _ => Except.error PyError.attributeError

end

/-! ## Proofs -/

@[simp] theorem pyLookup_nil {α : Type} (k : String) : pyLookup ([] : List (String × α)) k = none := rfl

@[simp] theorem pyLookup_cons {α : Type} (a : String × α) (d : List (String × α)) (k : String) :
    pyLookup (a :: d) k = if a.1 = k then some a.2 else pyLookup d k := by
  by_cases h : a.1 = k
  · simp [pyLookup, List.find?, h]
  · have hb : (a.1 == k) = false := by simpa using h
    simp [pyLookup, List.find?, hb, h]

theorem pyLookup_map_set_ne {α : Type} (d : List (String × α)) (k : String) (v : α) (k' : String)
    (h : k' ≠ k) :
    pyLookup (d.map (fun kv => if kv.1 == k then (kv.1, v) else kv)) k' = pyLookup d k' := by
  induction d with
  | nil => rfl
  | cons a d ih =>
    simp only [List.map_cons, pyLookup_cons]
    by_cases hak : a.1 = k
    · rw [if_pos (show (a.1 == k) = true by simpa using hak)]
      have hne : ¬ ((a.1, v).1 = k') := fun hk => h (hk ▸ hak)
      rw [if_neg hne, if_neg (show ¬ a.1 = k' from hne), ih]
    · rw [if_neg (show ¬ (a.1 == k) = true by simpa using hak)]
      by_cases hak' : a.1 = k'
      · rw [if_pos hak', if_pos hak']
      · rw [if_neg hak', if_neg hak', ih]

theorem pyLookup_map_set_self {α : Type} (d : List (String × α)) (k : String) (v : α)
    (h : d.any (fun kv => kv.1 == k) = true) :
    pyLookup (d.map (fun kv => if kv.1 == k then (kv.1, v) else kv)) k = some v := by
  induction d with
  | nil => simp at h
  | cons a d ih =>
    simp only [List.map_cons, pyLookup_cons]
    by_cases hak : a.1 = k
    · rw [if_pos (show (a.1 == k) = true by simpa using hak)]
      rw [if_pos (show (a.1, v).1 = k from hak)]
    · rw [if_neg (show ¬ (a.1 == k) = true by simpa using hak), if_neg hak]
      apply ih
      simpa [hak] using h

theorem pyLookup_append_single {α : Type} (d : List (String × α)) (k : String) (v : α)
    (k' : String) :
    pyLookup (d ++ [(k, v)]) k' =
      match pyLookup d k' with
      | some w => some w
      | none => if k' = k then some v else none := by
  induction d with
  | nil =>
    simp only [List.nil_append, pyLookup_cons, pyLookup_nil]
    by_cases h : k' = k
    · subst h; simp
    · rw [if_neg (fun hh => h hh.symm), if_neg h]
  | cons a d ih =>
    simp only [List.cons_append, pyLookup_cons]
    by_cases hak : a.1 = k'
    · simp [hak]
    · simp only [if_neg hak, ih]

theorem pyLookup_eq_none_of_not_any {α : Type} (d : List (String × α)) (k : String)
    (h : d.any (fun kv => kv.1 == k) = false) : pyLookup d k = none := by
  induction d with
  | nil => rfl
  | cons a d ih =>
    simp only [List.any_cons, Bool.or_eq_false_iff, beq_eq_false_iff_ne, ne_eq] at h
    simp [h.1, ih h.2]

/-- The characteristic equation of `dictSet`. -/
theorem pyLookup_dictSet {α : Type} (d : List (String × α)) (k : String) (v : α) (k' : String) :
    pyLookup (dictSet d k v) k' = if k' = k then some v else pyLookup d k' := by
  unfold dictSet
  by_cases hany : (d.any fun kv => kv.1 == k) = true
  · rw [if_pos hany]
    by_cases h : k' = k
    · subst h
      rw [if_pos rfl]
      exact pyLookup_map_set_self d k' v hany
    · rw [if_neg h]
      exact pyLookup_map_set_ne d k v k' h
  · rw [if_neg hany, pyLookup_append_single]
    have hany' : (d.any fun kv => kv.1 == k) = false := by
      cases hb : (d.any fun kv => kv.1 == k)
      · rfl
      · exact absurd hb hany
    have hnone : pyLookup d k = none := pyLookup_eq_none_of_not_any d k hany'
    by_cases h : k' = k
    · subst h
      rw [hnone]
    · cases hd : pyLookup d k' <;> simp [h, hd]

@[simp] theorem pyUpdate_nil {α : Type} (d : List (String × α)) : pyUpdate d [] = d := rfl

@[simp] theorem pyUpdate_cons {α : Type} (d : List (String × α)) (a : String × α)
    (items : List (String × α)) :
    pyUpdate d (a :: items) = pyUpdate (dictSet d a.1 a.2) items := rfl

/-- The characteristic equation of `pyUpdate`: a key set by the update list
wins (later entries shadowing earlier ones), otherwise the old binding is
kept. -/
theorem pyLookup_pyUpdate {α : Type} (d : List (String × α)) (items : List (String × α))
    (k : String) :
    pyLookup (pyUpdate d items) k =
      match pyLookup (pyDictOf items) k with
      | some w => some w
      | none => pyLookup d k := by
  induction items generalizing d with
  | nil => simp [pyDictOf]
  | cons a items ih =>
    rw [pyUpdate_cons, ih]
    have h2 : pyLookup (pyDictOf (a :: items)) k =
        match pyLookup (pyDictOf items) k with
        | some w => some w
        | none => if k = a.1 then some a.2 else none := by
      show pyLookup (pyUpdate (dictSet [] a.1 a.2) items) k = _
      rw [ih]
      cases hp : pyLookup (pyDictOf items) k <;> simp [hp, pyLookup_dictSet]
    rw [h2, pyLookup_dictSet]
    cases hp : pyLookup (pyDictOf items) k <;> by_cases h : k = a.1 <;> simp [h, hp]

/-! ## String facts -/

theorem strData_append (a b : String) : (a ++ b).data = a.data ++ b.data := by
  cases a; cases b; rfl

theorem strExt {a b : String} (h : a.data = b.data) : a = b := by
  cases a; cases b; cases h; rfl

theorem strAppend_assoc (a b c : String) : a ++ b ++ c = a ++ (b ++ c) :=
  strExt (by simp [strData_append])

@[simp] theorem strData_empty : ("" : String).data = [] := rfl

theorem strEmpty_append (s : String) : "" ++ s = s :=
  strExt (by simp [strData_append])

theorem joinSeg_foldl (q : List String) (b acc : String) :
    b ++ q.foldl (fun a k => a ++ "/" ++ k) acc = q.foldl (fun a k => a ++ "/" ++ k) (b ++ acc) := by
  induction q generalizing acc with
  | nil => rfl
  | cons x q ih =>
    simp only [List.foldl_cons]
    rw [ih (acc ++ "/" ++ x)]
    rw [strAppend_assoc b acc "/", strAppend_assoc b (acc ++ "/") x]

theorem routeOfLeaf_cons (base key : String) (q : List String) (d : SDict) :
    routeOfLeaf base (key :: q, d) = routeOfLeaf (base ++ "/" ++ key) (q, d) := by
  have hurl : base ++ joinSeg (key :: q) = (base ++ "/" ++ key) ++ joinSeg q := by
    simp only [joinSeg]
    rw [joinSeg_foldl (key :: q) base "", joinSeg_foldl q (base ++ "/" ++ key) ""]
    simp only [List.foldl_cons]
    congr 1
    exact strExt (by simp [strData_append])
  simp [routeOfLeaf, hurl]

theorem routeOfLeaf_single (base key : String) (d : SDict) :
    routeOfLeaf base ([key], d) =
      { url := base ++ "/" ++ key, path := base ++ "/" ++ key, settings := d } := by
  have h : base ++ joinSeg [key] = base ++ "/" ++ key := by
    apply strExt
    simp [joinSeg, strData_append]
  simp [routeOfLeaf, h]

mutual

/-- Master characterisation: a successful `buildUrls` call returns exactly
the routes of the leaves recorded by `leafData`, in order. -/
theorem buildUrls_eq_leafData (c : Config) (base : String) (s : Option SDict) (rs : List Route)
    (h : buildUrls c base s = Except.ok rs) :
    rs = (leafData c s).map (routeOfLeaf base) := by
  match c with
  | .null => simp only [buildUrls] at h; exact Except.noConfusion h
  | .str sv => simp only [buildUrls] at h; exact Except.noConfusion h
  | .node entries =>
    simp only [buildUrls] at h
    simpa only [leafData] using buildUrlsLoop_eq_leafLoop entries base (nodeSettings s entries) rs h

theorem buildUrlsLoop_eq_leafLoop (entries : Entries) (base : String) (settings : SDict)
    (rs : List Route) (h : buildUrlsLoop entries base settings = Except.ok rs) :
    rs = (leafLoop entries settings).map (routeOfLeaf base) := by
  match entries with
  | .nil =>
    simp only [buildUrlsLoop] at h
    cases h
    rfl
  | .cons key value rest =>
    simp only [buildUrlsLoop] at h
    by_cases hk : pyStartsWith key "_" = true
    · rw [if_pos hk] at h
      simpa only [leafLoop, if_pos hk, List.nil_append]
        using buildUrlsLoop_eq_leafLoop rest base settings rs h
    · rw [if_neg hk] at h
      match value with
      | .null => dsimp only at h; exact Except.noConfusion h
      | .str sv => dsimp only at h; exact Except.noConfusion h
      | .node ventries =>
        dsimp only at h
        simp only [leafLoop, if_neg hk]
        by_cases hc : hasChildKeys ventries = true
        · rw [if_pos hc] at h
          cases hbu : buildUrls (Config.node ventries) (base ++ "/" ++ key) (some settings) with
          | error e => rw [hbu] at h; exact Except.noConfusion h
          | ok here =>
            rw [hbu] at h
            cases hrest : buildUrlsLoop rest base settings with
            | error e => rw [hrest] at h; exact Except.noConfusion h
            | ok there =>
              rw [hrest] at h
              cases h
              rw [if_pos hc, List.map_append, List.map_map]
              rw [buildUrls_eq_leafData (Config.node ventries) (base ++ "/" ++ key)
                    (some settings) here hbu,
                  buildUrlsLoop_eq_leafLoop rest base settings there hrest]
              congr 1
              apply List.map_congr_left
              intro qd _
              show routeOfLeaf (base ++ "/" ++ key) qd = routeOfLeaf base (key :: qd.1, qd.2)
              rw [routeOfLeaf_cons]
        · rw [if_neg hc] at h
          cases hrest : buildUrlsLoop rest base settings with
          | error e => rw [hrest] at h; exact Except.noConfusion h
          | ok there =>
            rw [hrest] at h
            cases h
            rw [if_neg hc, List.map_append]
            rw [buildUrlsLoop_eq_leafLoop rest base settings there hrest]
            simp [routeOfLeaf_single]

end

mutual

theorem leafData_fst (c : Config) (s : Option SDict) :
    (leafData c s).map (fun qd => qd.1) = leafPaths c := by
  match c with
  | .null => rfl
  | .str sv => rfl
  | .node entries =>
    simp only [leafData, leafPaths]
    exact leafLoop_fst entries (nodeSettings s entries)

theorem leafLoop_fst (entries : Entries) (settings : SDict) :
    (leafLoop entries settings).map (fun qd => qd.1) = leafPathsLoop entries := by
  match entries with
  | .nil => rfl
  | .cons key value rest =>
    simp only [leafLoop, leafPathsLoop, List.map_append]
    rw [leafLoop_fst rest settings]
    congr 1
    by_cases hk : pyStartsWith key "_" = true
    · rw [if_pos hk, if_pos hk]; rfl
    · rw [if_neg hk, if_neg hk]
      match value with
      | .null => rfl
      | .str sv => rfl
      | .node ventries =>
        dsimp only
        by_cases hc : hasChildKeys ventries = true
        · rw [if_pos hc, if_pos hc, List.map_map,
            ← leafData_fst (Config.node ventries) (some settings), List.map_map]
          rfl
        · rw [if_neg hc, if_neg hc]; rfl

end

theorem nearestIn_append_single (ch : List (List (String × Config)))
    (items : List (String × Config)) (name : String) :
    nearestIn (ch ++ [items]) name =
      match pyLookup (pyDictOf items) name with
      | some v => some v
      | none => nearestIn ch name := by
  simp [nearestIn, List.foldl_append]

/-- The settings dictionary carried at a node agrees, on every key, with
the nearest-carrier rule over the chain of nodes walked so far. -/
theorem nodeSettings_nearest (s : Option SDict) (entries : Entries)
    (ch : List (List (String × Config)))
    (hinv : ∀ n : String, (match s with | none => none | some d => pyLookup d n) = nearestIn ch n)
    (n : String) :
    pyLookup (nodeSettings s entries) n = nearestIn (ch ++ [settingsItems entries]) n := by
  rw [nearestIn_append_single]
  match s with
  | none =>
    simp only [nodeSettings]
    have h0 : nearestIn ch n = none := (hinv n).symm
    cases hp : pyLookup (pyDictOf (settingsItems entries)) n <;> simp [hp, h0]
  | some bs =>
    simp only [nodeSettings]
    by_cases hbs : bs.isEmpty = true
    · rw [if_pos hbs]
      have hbs' : bs = [] := by
        cases bs
        · rfl
        · simp [List.isEmpty] at hbs
      have h0 : nearestIn ch n = none := by rw [← hinv n, hbs']; rfl
      cases hp : pyLookup (pyDictOf (settingsItems entries)) n <;> simp [hp, h0]
    · rw [if_neg hbs]
      rw [pyLookup_pyUpdate bs (settingsItems entries) n]
      have hinv' : pyLookup bs n = nearestIn ch n := hinv n
      rw [hinv']
      cases hp : pyLookup (pyDictOf (settingsItems entries)) n <;> simp [hp]

mutual

/-- For every leaf, the setting lookup in the settings dictionary its route
receives equals the nearest-carrier value over the chain of nodes from the
root down to the leaf's *parent* (the leaf's own setting keys are not
consulted). -/
theorem leafData_lookup (c : Config) (s : Option SDict)
    (ch : List (List (String × Config))) (name : String)
    (hinv : ∀ n : String, (match s with | none => none | some d => pyLookup d n) = nearestIn ch n) :
    (leafData c s).map (fun qd => pyLookup qd.2 name) =
      (leafChains c ch).map (fun chain => nearestIn chain name) := by
  match c with
  | .null => rfl
  | .str sv => rfl
  | .node entries =>
    simp only [leafData, leafChains]
    exact leafLoop_lookup entries (nodeSettings s entries) (ch ++ [settingsItems entries]) name
      (nodeSettings_nearest s entries ch hinv)

theorem leafLoop_lookup (entries : Entries) (settings : SDict)
    (ch : List (List (String × Config))) (name : String)
    (hinv : ∀ n : String, pyLookup settings n = nearestIn ch n) :
    (leafLoop entries settings).map (fun qd => pyLookup qd.2 name) =
      (leafChainsLoop entries ch).map (fun chain => nearestIn chain name) := by
  match entries with
  | .nil => rfl
  | .cons key value rest =>
    simp only [leafLoop, leafChainsLoop, List.map_append]
    rw [leafLoop_lookup rest settings ch name hinv]
    congr 1
    by_cases hk : pyStartsWith key "_" = true
    · rw [if_pos hk, if_pos hk]; rfl
    · rw [if_neg hk, if_neg hk]
      match value with
      | .null => rfl
      | .str sv => rfl
      | .node ventries =>
        dsimp only
        by_cases hc : hasChildKeys ventries = true
        · rw [if_pos hc, if_pos hc, List.map_map]
          exact leafData_lookup (Config.node ventries) (some settings) ch name hinv
        · rw [if_neg hc, if_neg hc]
          simp [hinv name]

end

theorem badChildren_hasChildKeys (entries : Entries) (hb : badChildren entries = true) :
    hasChildKeys entries = true := by
  match entries with
  | .nil => simp [badChildren] at hb
  | .cons key value rest =>
    simp only [badChildren, Bool.or_eq_true] at hb
    simp only [hasChildKeys, Bool.or_eq_true]
    by_cases hk : pyStartsWith key "_" = true
    · rw [if_pos hk] at hb
      rcases hb with hb | hb
      · exact absurd hb (by simp)
      · exact Or.inr (badChildren_hasChildKeys rest hb)
    · simp [hk]

mutual

theorem buildUrls_error_of_bad (c : Config) (base : String) (s : Option SDict)
    (hb : hasBadChild c = true) :
    buildUrls c base s = Except.error PyError.attributeError := by
  match c with
  | .null => simp [hasBadChild] at hb
  | .str sv => simp [hasBadChild] at hb
  | .node entries =>
    simp only [hasBadChild] at hb
    simp only [buildUrls]
    exact buildUrlsLoop_error_of_bad entries base (nodeSettings s entries) hb

theorem buildUrlsLoop_error_of_bad (entries : Entries) (base : String) (settings : SDict)
    (hb : badChildren entries = true) :
    buildUrlsLoop entries base settings = Except.error PyError.attributeError := by
  match entries with
  | .nil => simp [badChildren] at hb
  | .cons key value rest =>
    simp only [badChildren, Bool.or_eq_true] at hb
    simp only [buildUrlsLoop]
    by_cases hk : pyStartsWith key "_" = true
    · rw [if_pos hk]
      rw [if_pos hk] at hb
      rcases hb with hb | hb
      · exact absurd hb (by simp)
      · exact buildUrlsLoop_error_of_bad rest base settings hb
    · rw [if_neg hk]
      rw [if_neg hk] at hb
      match value with
      | .null => rfl
      | .str sv => rfl
      | .node ventries =>
        dsimp only
        rcases hb with hb | hb
        · dsimp only at hb
          have hc : hasChildKeys ventries = true :=
            badChildren_hasChildKeys ventries (by simpa [hasBadChild] using hb)
          rw [if_pos hc]
          rw [buildUrls_error_of_bad (Config.node ventries) (base ++ "/" ++ key)
                (some settings) hb]
        · rw [buildUrlsLoop_error_of_bad rest base settings hb]
          cases hhere : (if hasChildKeys ventries = true then
              buildUrls (Config.node ventries) (base ++ "/" ++ key) (some settings)
            else
              Except.ok [{ url := base ++ "/" ++ key, path := base ++ "/" ++ key,
                           settings := settings }]) with
          | ok here => rfl
          | error e =>
            cases e
            rfl

end

/-! ## Handler lemmas -/

theorem authHeader_if (headers : List (String × String)) :
    (if headers.isEmpty then none else pyLookup headers "Authorization") =
      pyLookup headers "Authorization" := by
  cases headers <;> rfl

/-- The authorization check rejects exactly when the token is configured
and the header is missing, mis-prefixed, or carries the wrong token. -/
theorem tokenCheck_false_iff (settings : List (String × String)) (key : String)
    (headers : List (String × String)) :
    tokenCheck settings key headers = false ↔
      ∃ tok, pyLookup settings key = some tok ∧
        (pyLookup headers "Authorization" = none ∨
         ∃ auth, pyLookup headers "Authorization" = some auth ∧
           (pyStartsWith auth "bearer " = false ∨ pyDropStr auth 7 ≠ tok)) := by
  unfold tokenCheck
  rw [authHeader_if]
  cases hs : pyLookup settings key with
  | none => simp [hs]
  | some tok =>
    cases ha : pyLookup headers "Authorization" with
    | none => simp [ha]
    | some auth =>
      simp only [ha, Bool.and_eq_false_iff, Option.some.injEq, beq_eq_false_iff_ne, ne_eq]
      cases hps : pyStartsWith auth "bearer " <;> simp [hps]

theorem readChunksAux_flatten (fuel : Nat) :
    ∀ l : List Nat, l.length ≤ fuel → (readChunksAux fuel l).flatten = l := by
  induction fuel with
  | zero =>
    intro l hl
    have h0 : l = [] := List.eq_nil_of_length_eq_zero (Nat.le_zero.mp hl)
    subst h0
    rfl
  | succ fuel ih =>
    intro l hl
    match l with
    | [] => rfl
    | c :: cs =>
      simp only [readChunksAux, List.flatten_cons]
      rw [ih ((c :: cs).drop 1024) (by simp only [List.length_drop]; omega)]
      exact List.take_append_drop 1024 (c :: cs)

/-- The concatenation of the streamed chunks is the whole file. -/
theorem readChunks_flatten (l : List Nat) : (readChunks l).flatten = l :=
  readChunksAux_flatten l.length l (Nat.le_refl _)

theorem artefactPut_result (path : String) (settings headers : List (String × String))
    (body : List Nat) (fs : FS) (bd : String)
    (hw : tokenCheck settings "write_token" headers = true)
    (hbd : pyLookup settings "base_directory" = some bd) :
    artefactPut path settings headers body fs =
      ({ (if fsExists fs (dirname (bd ++ path)) = false
           then makedirs fs (dirname (bd ++ path)) else fs) with
         files := dictSet (if fsExists fs (dirname (bd ++ path)) = false
           then makedirs fs (dirname (bd ++ path)) else fs).files (bd ++ path) body },
       Except.ok 204) := by
  unfold artefactPut
  rw [if_neg (by simp [hw]), hbd]

theorem artefactGet_ok (path : String) (settings headers : List (String × String)) (fs : FS)
    (bd : String) (contents : List Nat)
    (hr : tokenCheck settings "read_token" headers = true)
    (hbd : pyLookup settings "base_directory" = some bd)
    (hfile : pyLookup fs.files (bd ++ path) = some contents) :
    artefactGet path settings headers fs = Except.ok (readChunks contents) := by
  unfold artefactGet
  rw [if_neg (by simp [hr]), hbd]
  dsimp only
  rw [if_neg (by simp [fsExists, hfile]), hfile]

theorem put_then_lookup (fs1 : FS) (full : String) (body : List Nat) :
    pyLookup ({ fs1 with files := dictSet fs1.files full body }).files full = some body := by
  dsimp only
  rw [pyLookup_dictSet]
  simp

/-! ## Bearer header algebra -/

theorem pyStartsWith_bearer_append (tok : String) :
    pyStartsWith ("bearer " ++ tok) "bearer " = true := by
  unfold pyStartsWith
  rw [strData_append]
  exact Iff.mpr List.isPrefixOf_iff_prefix (List.prefix_append _ _)

theorem pyDropStr_bearer_append (tok : String) :
    pyDropStr ("bearer " ++ tok) 7 = tok := by
  unfold pyDropStr
  rw [strData_append]
  have h7 : ("bearer " : String).data.length = 7 := rfl
  rw [← h7, List.drop_left]

theorem eq_bearer_append_of (auth tok : String)
    (hs : pyStartsWith auth "bearer " = true) (hd : pyDropStr auth 7 = tok) :
    auth = "bearer " ++ tok := by
  unfold pyStartsWith at hs
  obtain ⟨t, ht⟩ := Iff.mp List.isPrefixOf_iff_prefix hs
  have hdata : tok.data = auth.data.drop 7 := by
    rw [← hd]
    rfl
  apply strExt
  rw [strData_append, hdata, ← ht]
  have h7 : ("bearer " : String).data.length = 7 := rfl
  rw [← h7, List.drop_left]

theorem tokenCheck_true_of_bearer (settings headers : List (String × String)) (key tok : String)
    (hst : pyLookup settings key = some tok)
    (hh : pyLookup headers "Authorization" = some ("bearer " ++ tok)) :
    tokenCheck settings key headers = true := by
  unfold tokenCheck
  rw [hst]
  dsimp only
  rw [authHeader_if, hh]
  dsimp only
  rw [pyStartsWith_bearer_append, pyDropStr_bearer_append]
  simp

theorem tokenCheck_false_of_wrong (settings headers : List (String × String)) (key tok : String)
    (hst : pyLookup settings key = some tok)
    (hw : ∀ a, pyLookup headers "Authorization" = some a → a ≠ "bearer " ++ tok) :
    tokenCheck settings key headers = false := by
  unfold tokenCheck
  rw [hst]
  dsimp only
  rw [authHeader_if]
  cases ha : pyLookup headers "Authorization" with
  | none => rfl
  | some auth =>
    dsimp only
    cases hps : pyStartsWith auth "bearer " with
    | false => simp
    | true =>
      cases hpd : (pyDropStr auth 7 == tok) with
      | false => simp [hpd]
      | true =>
        exact absurd (eq_bearer_append_of auth tok hps (beq_iff_eq.mp hpd)) (hw auth ha)

/-! ## Claim theorems for the handler -/

/-- C2: a GET raises HTTP 401 exactly when `read_token` is configured and
the request either has no `Authorization` header, or the header value does
not start with the lowercase literal `'bearer '` (single space), or the
remainder after that 7-character prefix differs from the configured
`read_token`; with no `read_token` configured, GET never fails
authorization, whatever the headers. -/
theorem get_raises_401_iff (path : String) (settings headers : List (String × String)) (fs : FS) :
    artefactGet path settings headers fs = Except.error (HandlerError.http 401) ↔
      ∃ tok, pyLookup settings "read_token" = some tok ∧
        (pyLookup headers "Authorization" = none ∨
         ∃ auth, pyLookup headers "Authorization" = some auth ∧
           (pyStartsWith auth "bearer " = false ∨ pyDropStr auth 7 ≠ tok)) := by
  rw [← tokenCheck_false_iff settings "read_token" headers]
  unfold artefactGet
  by_cases htc : tokenCheck settings "read_token" headers = false
  · rw [if_pos htc]
    exact iff_of_true rfl htc
  · rw [if_neg htc]
    apply iff_of_false _ htc
    cases hbd : pyLookup settings "base_directory" with
    | none => simp
    | some bd =>
      dsimp only
      by_cases hex : fsExists fs (bd ++ path) = false
      · rw [if_pos hex]
        simp
      · rw [if_neg hex]
        cases hfile : pyLookup fs.files (bd ++ path) <;> simp

/-- C3: on a route with `write_token` configured, a PUT presenting
`Authorization: bearer <write_token>` writes the request body to the
artefact file and answers 204, while a missing or non-matching token makes
the handler raise HTTP 401 with the filesystem completely untouched (no
write, no directory creation). -/
theorem put_write_token_authorization (path : String) (settings headers : List (String × String))
    (body : List Nat) (fs : FS) (tok : String)
    (hwt : pyLookup settings "write_token" = some tok) :
    (∀ bd, pyLookup settings "base_directory" = some bd →
       pyLookup headers "Authorization" = some ("bearer " ++ tok) →
       (artefactPut path settings headers body fs).2 = Except.ok 204 ∧
       pyLookup (artefactPut path settings headers body fs).1.files (bd ++ path) = some body) ∧
    ((∀ a, pyLookup headers "Authorization" = some a → a ≠ "bearer " ++ tok) →
       artefactPut path settings headers body fs = (fs, Except.error (HandlerError.http 401))) := by
  constructor
  · intro bd hbd hh
    have hw : tokenCheck settings "write_token" headers = true :=
      tokenCheck_true_of_bearer settings headers "write_token" tok hwt hh
    rw [artefactPut_result path settings headers body fs bd hw hbd]
    exact ⟨rfl, put_then_lookup _ _ _⟩
  · intro hwrong
    have hf : tokenCheck settings "write_token" headers = false :=
      tokenCheck_false_of_wrong settings headers "write_token" tok hwt hwrong
    unfold artefactPut
    rw [if_pos hf]

theorem put_write_token_authorization_witness :
    (artefactPut "/f" [("write_token", "abc"), ("base_directory", "/d")]
        [("Authorization", "bearer abc")] [1, 2] { files := [], dirs := [] }).2 =
      Except.ok 204 ∧
    pyLookup (artefactPut "/f" [("write_token", "abc"), ("base_directory", "/d")]
        [("Authorization", "bearer abc")] [1, 2] { files := [], dirs := [] }).1.files
        ("/d" ++ "/f") = some [1, 2] :=
  (put_write_token_authorization "/f" [("write_token", "abc"), ("base_directory", "/d")]
      [("Authorization", "bearer abc")] [1, 2] { files := [], dirs := [] } "abc"
      (by decide)).1 "/d" (by decide) (by decide)

/-- C4: after an authorized PUT of body `B`, an authorized (or, with no
`read_token`, unauthenticated) GET of the same path streams exactly the
chunks of `B` — their concatenation is `B` byte for byte — and the written
file holds exactly `B` whatever the file (or anything else) previously on
disk: the PUT replaced, not appended. -/
theorem put_get_roundtrip (path : String) (settings pheaders gheaders : List (String × String))
    (body : List Nat) (fs : FS) (bd : String)
    (hbd : pyLookup settings "base_directory" = some bd)
    (hw : tokenCheck settings "write_token" pheaders = true)
    (hr : tokenCheck settings "read_token" gheaders = true) :
    (artefactPut path settings pheaders body fs).2 = Except.ok 204 ∧
    pyLookup (artefactPut path settings pheaders body fs).1.files (bd ++ path) = some body ∧
    artefactGet path settings gheaders (artefactPut path settings pheaders body fs).1 =
      Except.ok (readChunks body) ∧
    (readChunks body).flatten = body := by
  rw [artefactPut_result path settings pheaders body fs bd hw hbd]
  exact ⟨rfl, put_then_lookup _ _ _,
    artefactGet_ok path settings gheaders _ bd body hr hbd (put_then_lookup _ _ _),
    readChunks_flatten body⟩

theorem put_get_roundtrip_witness :
    (artefactPut "/p" [("base_directory", "/d")] [] [5, 6, 7]
        { files := [("/d/p", [9])], dirs := ["/d", "/"] }).2 = Except.ok 204 ∧
    pyLookup (artefactPut "/p" [("base_directory", "/d")] [] [5, 6, 7]
        { files := [("/d/p", [9])], dirs := ["/d", "/"] }).1.files ("/d" ++ "/p") =
      some [5, 6, 7] ∧
    artefactGet "/p" [("base_directory", "/d")] []
        (artefactPut "/p" [("base_directory", "/d")] [] [5, 6, 7]
          { files := [("/d/p", [9])], dirs := ["/d", "/"] }).1 =
      Except.ok (readChunks [5, 6, 7]) ∧
    (readChunks [5, 6, 7]).flatten = [5, 6, 7] :=
  put_get_roundtrip "/p" [("base_directory", "/d")] [] [] [5, 6, 7]
    { files := [("/d/p", [9])], dirs := ["/d", "/"] } "/d" (by decide) (by decide) (by decide)

/-- C6: every error response assembled by `write_error` — for any error
status, not only 401 — has as body exactly the numeric status code
rendered as text, and carries the header
`WWW-Authenticate: bearer realm="Simple Artefact Registry"`. -/
theorem write_error_body_and_challenge_header (status_code : Nat) :
    (write_error status_code).body = toString status_code ∧
    ("WWW-Authenticate", "bearer realm=\"Simple Artefact Registry\"") ∈
      (write_error status_code).headers :=
  ⟨rfl, List.mem_singleton.mpr rfl⟩

/-- C7: a GET that passes (or is exempt from) the authorization check
raises HTTP 404, streaming nothing, when nothing exists at the
concatenation of the route's `base_directory` and its path. -/
theorem get_missing_file_404 (path : String) (settings headers : List (String × String))
    (fs : FS) (bd : String)
    (hr : tokenCheck settings "read_token" headers = true)
    (hbd : pyLookup settings "base_directory" = some bd)
    (hne : fsExists fs (bd ++ path) = false) :
    artefactGet path settings headers fs = Except.error (HandlerError.http 404) := by
  unfold artefactGet
  rw [if_neg (by simp [hr]), hbd]
  dsimp only
  rw [if_pos hne]

theorem get_missing_file_404_witness :
    artefactGet "/p" [("base_directory", "/d"), ("read_token", "abc")]
        [("Authorization", "bearer abc")] { files := [], dirs := [] } =
      Except.error (HandlerError.http 404) :=
  get_missing_file_404 "/p" [("base_directory", "/d"), ("read_token", "abc")]
    [("Authorization", "bearer abc")] { files := [], dirs := [] } "/d"
    (by decide) (by decide) (by decide)

/-! ## Recursive directory creation -/

theorem fsExists_mkdirCons_self (fs : FS) (n : String) :
    fsExists (mkdirCons n fs) n = true := by
  simp [mkdirCons, fsExists]

theorem fsExists_mkdirCons_of (fs : FS) (n d : String) (h : fsExists fs d = true) :
    fsExists (mkdirCons n fs) d = true := by
  simp only [mkdirCons, fsExists, Bool.or_eq_true, decide_eq_true_eq, List.mem_cons] at *
  tauto

theorem fsExists_setFile_of (fs : FS) (full d : String) (body : List Nat)
    (h : fsExists fs d = true) :
    fsExists { fs with files := dictSet fs.files full body } d = true := by
  simp only [fsExists, Bool.or_eq_true, decide_eq_true_eq] at *
  rcases h with h | h
  · left
    rw [pyLookup_dictSet]
    by_cases hd : d = full <;> simp [hd, h]
  · right
    exact h

theorem dirChainAux_emptyStr (fuel : Nat) : dirChainAux fuel "" = [] := by
  cases fuel <;> rfl

theorem dirChainAux_succ (fuel : Nat) (p : String) (h : p ≠ "") :
    dirChainAux (fuel + 1) p =
      p :: (if (dirname p).length < p.length then dirChainAux fuel (dirname p) else []) := by
  simp [dirChainAux, h]

/-- `makedirs` creates every directory of the ancestor chain when none of
them existed before the call. -/
theorem makedirsAux_chain (fuel : Nat) :
    ∀ (fs : FS) (name : String),
      (∀ d ∈ dirChainAux fuel name, fsExists fs d = false) →
      ∀ d ∈ dirChainAux fuel name, fsExists (makedirsAux fuel fs name) d = true := by
  induction fuel with
  | zero =>
    intro fs name _ d hd
    simp [dirChainAux] at hd
  | succ fuel ih =>
    intro fs name hmiss d hd
    by_cases hname : name = ""
    · subst hname
      simp [dirChainAux] at hd
    · rw [dirChainAux_succ fuel name hname] at hd hmiss
      simp only [List.mem_cons] at hd
      simp only [makedirsAux]
      rcases hd with rfl | hd
      · exact fsExists_mkdirCons_self _ d
      · by_cases hlt : (dirname name).length < name.length
        · rw [if_pos hlt] at hd
          by_cases hdn : dirname name = ""
          · rw [hdn, dirChainAux_emptyStr] at hd
            cases hd
          · have hmem : dirname name ∈ dirChainAux fuel (dirname name) := by
              cases fuel with
              | zero => simp [dirChainAux] at hd
              | succ g =>
                rw [dirChainAux_succ g (dirname name) hdn]
                exact List.mem_cons_self _ _
            have hmiss' : ∀ d' ∈ dirChainAux fuel (dirname name), fsExists fs d' = false :=
              fun d' hd' => hmiss d' (List.mem_cons_of_mem name (by rw [if_pos hlt]; exact hd'))
            have hguard : dirname name ≠ "" ∧ (dirname name).length < name.length ∧
                fsExists fs (dirname name) = false :=
              ⟨hdn, hlt, hmiss' (dirname name) hmem⟩
            rw [if_pos hguard]
            exact fsExists_mkdirCons_of _ name d (ih fs (dirname name) hmiss' d hd)
        · rw [if_neg hlt] at hd
          cases hd

theorem strLength_zero (s : String) (h : s.length = 0) : s = "" := by
  apply strExt
  have hd : s.data.length = 0 := h
  simp [List.eq_nil_of_length_eq_zero hd]

/-- C8: an authorized PUT whose target's parent directories are all missing
creates every directory of the ancestor chain, answers 204, and an
authorized GET of the same path afterwards streams exactly the written
body. -/
theorem put_creates_missing_parent_directories (path : String)
    (settings pheaders gheaders : List (String × String)) (body : List Nat) (fs : FS)
    (bd : String)
    (hbd : pyLookup settings "base_directory" = some bd)
    (hw : tokenCheck settings "write_token" pheaders = true)
    (hr : tokenCheck settings "read_token" gheaders = true)
    (hmiss : ∀ d ∈ dirChain (dirname (bd ++ path)), fsExists fs d = false) :
    (artefactPut path settings pheaders body fs).2 = Except.ok 204 ∧
    (∀ d ∈ dirChain (dirname (bd ++ path)),
       fsExists (artefactPut path settings pheaders body fs).1 d = true) ∧
    artefactGet path settings gheaders (artefactPut path settings pheaders body fs).1 =
      Except.ok (readChunks body) ∧
    (readChunks body).flatten = body := by
  rw [artefactPut_result path settings pheaders body fs bd hw hbd]
  refine ⟨rfl, ?_,
    artefactGet_ok path settings gheaders _ bd body hr hbd (put_then_lookup _ _ _),
    readChunks_flatten body⟩
  intro d hd
  apply fsExists_setFile_of
  by_cases hex : fsExists fs (dirname (bd ++ path)) = false
  · rw [if_pos hex]
    exact makedirsAux_chain (dirname (bd ++ path)).length fs (dirname (bd ++ path)) hmiss d hd
  · exfalso
    have hne : dirname (bd ++ path) ≠ "" := by
      intro h0
      rw [h0] at hd
      simp only [dirChain, dirChainAux_emptyStr] at hd
      cases hd
    have hmem : dirname (bd ++ path) ∈ dirChain (dirname (bd ++ path)) := by
      unfold dirChain
      cases hl : (dirname (bd ++ path)).length with
      | zero => exact absurd (strLength_zero _ hl) hne
      | succ g =>
        rw [dirChainAux_succ g (dirname (bd ++ path)) hne]
        exact List.mem_cons_self _ _
    exact hex (hmiss _ hmem)

theorem put_creates_missing_parent_directories_witness :
    (artefactPut "/x/y" [("base_directory", "/d")] [] [1] { files := [], dirs := [] }).2 =
      Except.ok 204 ∧
    fsExists (artefactPut "/x/y" [("base_directory", "/d")] [] [1]
        { files := [], dirs := [] }).1 "/d/x" = true ∧
    fsExists (artefactPut "/x/y" [("base_directory", "/d")] [] [1]
        { files := [], dirs := [] }).1 "/d" = true ∧
    artefactGet "/x/y" [("base_directory", "/d")] []
        (artefactPut "/x/y" [("base_directory", "/d")] [] [1] { files := [], dirs := [] }).1 =
      Except.ok (readChunks [1]) := by
  have h := put_creates_missing_parent_directories "/x/y" [("base_directory", "/d")] [] [] [1]
    { files := [], dirs := [] } "/d" (by decide) (by decide) (by decide) (by decide)
  exact ⟨h.1, h.2.1 "/d/x" (by decide), h.2.1 "/d" (by decide), h.2.2.1⟩

/-! ## Claim theorems for the route builder -/

/-- C1 counterexample: in the tree
`{a: {_read_token: x, b: {_read_token: y}}}` the leaf `b` carries its own
`_read_token` with value `y`, yet the route emitted for `/a/b` keeps the
parent's settings: its `read_token` is `x`, not `y` — a leaf's own setting
keys do **not** override the inherited ones in its Route. -/
theorem leaf_own_settings_ignored_counterexample :
    buildUrls
        (.node (.cons "a"
          (.node (.cons "_read_token" (.str "x")
            (.cons "b" (.node (.cons "_read_token" (.str "y") .nil)) .nil))) .nil))
        "" none =
      Except.ok [{ url := "/a/b", path := "/a/b",
                   settings := [("read_token", Config.str "x")] }] ∧
    pyLookup [("read_token", Config.str "x")] "read_token" ≠ some (Config.str "y") := by
  decide

/-- C1 (amended): for every configuration tree, the settings dictionary in
the Route emitted for a leaf resolves each setting name to the value at
the nearest **proper** ancestor of the leaf (root node down to the leaf's
parent, a node's own `_`-keys overriding its ancestors'), and to `none`
when no such node carries it; the leaf's own setting keys are ignored, not
merged in. -/
theorem route_settings_nearest_proper_ancestor (c : Config) (rs : List Route) (name : String)
    (h : buildUrls c "" none = Except.ok rs) :
    rs.map (fun r => pyLookup r.settings name) =
      (leafChains c []).map (fun chain => nearestIn chain name) := by
  rw [buildUrls_eq_leafData c "" none rs h, List.map_map]
  exact leafData_lookup c none [] name (fun n => rfl)

theorem route_settings_nearest_proper_ancestor_witness :
    ([{ url := "/a/b", path := "/a/b",
        settings := [("read_token", Config.str "x")] }] : List Route).map
        (fun r => pyLookup r.settings "read_token") =
      (leafChains
        (.node (.cons "a"
          (.node (.cons "_read_token" (.str "x")
            (.cons "b" (.node (.cons "_read_token" (.str "y") .nil)) .nil))) .nil))
        []).map (fun chain => nearestIn chain "read_token") :=
  route_settings_nearest_proper_ancestor
    (.node (.cons "a"
      (.node (.cons "_read_token" (.str "x")
        (.cons "b" (.node (.cons "_read_token" (.str "y") .nil)) .nil))) .nil))
    [{ url := "/a/b", path := "/a/b", settings := [("read_token", Config.str "x")] }]
    "read_token" (by decide)

/-- C5: on a configuration tree with unique keys per level, a successful
`build_urls` yields exactly one Route per leaf (in traversal order, none
for directory nodes), and each Route's `url_path` is the chain of ancestor
key names followed by the leaf's key name, each segment joined after a `/`
separator onto the empty base URL. -/
theorem one_route_per_leaf (c : Config) (rs : List Route)
    (_hu : uniqKeys c = true) (h : buildUrls c "" none = Except.ok rs) :
    rs.map (fun r => r.url) = (leafPaths c).map joinSeg := by
  rw [buildUrls_eq_leafData c "" none rs h, List.map_map, ← leafData_fst c none, List.map_map]
  apply List.map_congr_left
  intro qd _
  show "" ++ joinSeg qd.1 = joinSeg qd.1
  exact strEmpty_append _

theorem one_route_per_leaf_witness :
    ([{ url := "/a/b", path := "/a/b", settings := [("base_directory", Config.str "/d")] },
      { url := "/a/c", path := "/a/c", settings := [("base_directory", Config.str "/d")] }] :
        List Route).map (fun r => r.url) =
      (leafPaths
        (.node (.cons "_base_directory" (.str "/d")
          (.cons "a" (.node (.cons "b" (.node .nil)
            (.cons "c" (.node .nil) .nil))) .nil)))).map joinSeg :=
  one_route_per_leaf
    (.node (.cons "_base_directory" (.str "/d")
      (.cons "a" (.node (.cons "b" (.node .nil) (.cons "c" (.node .nil) .nil))) .nil)))
    [{ url := "/a/b", path := "/a/b", settings := [("base_directory", Config.str "/d")] },
     { url := "/a/c", path := "/a/c", settings := [("base_directory", Config.str "/d")] }]
    (by decide) (by decide)

/-- C9: `build_urls` only succeeds when every child value in the tree is a
mapping: whenever some reachable child value is not a mapping (e.g. the
null of a YAML `file_name:` with no value), the call raises
`AttributeError` when it asks that value for its keys, producing no route
list. -/
theorem build_urls_fails_on_non_mapping_child (c : Config) (base : String) (s : Option SDict)
    (hb : hasBadChild c = true) :
    buildUrls c base s = Except.error PyError.attributeError :=
  buildUrls_error_of_bad c base s hb

theorem build_urls_fails_on_non_mapping_child_witness :
    buildUrls (.node (.cons "file_name" .null .nil)) "" none =
      Except.error PyError.attributeError :=
  build_urls_fails_on_non_mapping_child (.node (.cons "file_name" .null .nil)) "" none
    (by decide)

theorem allocSettingsH_frame (baseSettings : Option Nat) (entries : Entries) (h : Heap) :
    h.length ≤ (allocSettingsH baseSettings entries h).2.length ∧
    ∀ a, a < h.length → (allocSettingsH baseSettings entries h).2[a]? = h[a]? := by
  match baseSettings with
  | none =>
    refine ⟨by simp [allocSettingsH], fun a ha => ?_⟩
    simp only [allocSettingsH]
    rw [List.getElem?_append, if_pos ha]
  | some b =>
    by_cases hb : (hGet h b).isEmpty = true
    · refine ⟨by simp [allocSettingsH, hb], fun a ha => ?_⟩
      simp only [allocSettingsH, if_pos hb]
      rw [List.getElem?_append, if_pos ha]
    · refine ⟨by simp [allocSettingsH, hb, hSet], fun a ha => ?_⟩
      simp only [allocSettingsH, if_neg hb, hSet]
      rw [List.getElem?_set_ne (by omega : h.length ≠ a)]
      rw [List.getElem?_append, if_pos ha]

mutual

theorem buildUrlsH_frame (c : Config) (base : String) (bs : Option Nat) (h : Heap)
    (rs : List RouteH) (h' : Heap) (hok : buildUrlsH c base bs h = Except.ok (rs, h')) :
    h.length ≤ h'.length ∧ ∀ a, a < h.length → h'[a]? = h[a]? := by
  match c with
  | .null => simp only [buildUrlsH] at hok; exact Except.noConfusion hok
  | .str sv => simp only [buildUrlsH] at hok; exact Except.noConfusion hok
  | .node entries =>
    simp only [buildUrlsH] at hok
    have halloc := allocSettingsH_frame bs entries h
    have hloop := buildUrlsLoopH_frame entries base (allocSettingsH bs entries h).1
      (allocSettingsH bs entries h).2 rs h' hok
    refine ⟨Nat.le_trans halloc.1 hloop.1, fun a ha => ?_⟩
    rw [hloop.2 a (Nat.lt_of_lt_of_le ha halloc.1), halloc.2 a ha]

theorem buildUrlsLoopH_frame (entries : Entries) (base : String) (sa : Nat) (h : Heap)
    (rs : List RouteH) (h' : Heap)
    (hok : buildUrlsLoopH entries base sa h = Except.ok (rs, h')) :
    h.length ≤ h'.length ∧ ∀ a, a < h.length → h'[a]? = h[a]? := by
  match entries with
  | .nil =>
    simp only [buildUrlsLoopH] at hok
    cases hok
    exact ⟨Nat.le_refl _, fun a _ => rfl⟩
  | .cons key value rest =>
    simp only [buildUrlsLoopH] at hok
    by_cases hk : pyStartsWith key "_" = true
    · rw [if_pos hk] at hok
      exact buildUrlsLoopH_frame rest base sa h rs h' hok
    · rw [if_neg hk] at hok
      match value with
      | .null => dsimp only at hok; exact Except.noConfusion hok
      | .str sv => dsimp only at hok; exact Except.noConfusion hok
      | .node ventries =>
        dsimp only at hok
        by_cases hc : hasChildKeys ventries = true
        · rw [if_pos hc] at hok
          cases hbu : buildUrlsH (Config.node ventries) (base ++ "/" ++ key) (some sa) h with
          | error e => rw [hbu] at hok; exact Except.noConfusion hok
          | ok pr =>
            rw [hbu] at hok
            obtain ⟨here, h2⟩ := pr
            dsimp only at hok
            cases hrest : buildUrlsLoopH rest base sa h2 with
            | error e => rw [hrest] at hok; exact Except.noConfusion hok
            | ok pr2 =>
              rw [hrest] at hok
              obtain ⟨there, h3⟩ := pr2
              cases hok
              have f1 := buildUrlsH_frame (Config.node ventries) (base ++ "/" ++ key)
                (some sa) h here h2 hbu
              have f2 := buildUrlsLoopH_frame rest base sa h2 there h' hrest
              refine ⟨Nat.le_trans f1.1 f2.1, fun a ha => ?_⟩
              rw [f2.2 a (Nat.lt_of_lt_of_le ha f1.1), f1.2 a ha]
        · rw [if_neg hc] at hok
          dsimp only at hok
          cases hrest : buildUrlsLoopH rest base sa h with
          | error e => rw [hrest] at hok; exact Except.noConfusion hok
          | ok pr2 =>
            rw [hrest] at hok
            obtain ⟨there, h3⟩ := pr2
            cases hok
            exact buildUrlsLoopH_frame rest base sa h there h' hrest

end

/-- C10: a successful `build_urls` call leaves the caller's arguments
untouched: its `config` is only read (it is pure data here), and every
settings dictionary existing in the heap before the call — in particular
the caller's `base_settings` — holds the identical dictionary after it,
because the inherited settings are deep-copied into a fresh cell before
the node's own setting keys are overlaid. -/
theorem buildUrlsH_preserves_caller_heap (c : Config) (base : String) (bs : Option Nat)
    (h : Heap) (rs : List RouteH) (h' : Heap)
    (hok : buildUrlsH c base bs h = Except.ok (rs, h')) :
    ∀ a, a < h.length → h'[a]? = h[a]? :=
  fun a ha => (buildUrlsH_frame c base bs h rs h' hok).2 a ha

theorem buildUrlsH_preserves_caller_heap_witness :
    ([[("read_token", Config.str "t")], [("read_token", Config.str "t")]] : Heap)[0]? =
      ([[("read_token", Config.str "t")]] : Heap)[0]? :=
  buildUrlsH_preserves_caller_heap (.node (.cons "a" (.node .nil) .nil)) "" (some 0)
    [[("read_token", Config.str "t")]]
    [{ url := "/a", path := "/a", settings := 1 }]
    [[("read_token", Config.str "t")], [("read_token", Config.str "t")]]
    (by decide) 0 (by decide)

end SAR
